import Mathlib

/-!
Verification of the chatlogger Conversation Extraction & Deduplication Engine.

The definitions below are a shallow embedding of `src/chatLogger.ts` and
`src/ChatConversationMonitor.ts`.  JavaScript `Date` values are modelled as
`Nat` (milliseconds since the epoch), JS strings as Lean `String`
(the code only manipulates them as character sequences; `String.length`
models `.length`, which agrees with JS UTF-16 length on the ASCII inputs
exercised here), and the `sqlite3`/filesystem/`Math.random` effects as
explicit oracle parameters.  Fallible steps return `Option`.
-/

namespace Chatlogger


/-- Message roles: the TS union `'user' | 'assistant' | 'system'`. -/
inductive Role where
  | user
  | assistant
  | system
  deriving DecidableEq, Repr

/-- `ChatMessage.metadata` from `chatLogger.ts` (lines 14-19). -/
structure MessageMetadata where
  hasCodeBlocks : Bool
  codeLanguage : Option String
  messageLength : Nat
  isFiltered : Bool
  deriving DecidableEq, Repr

/-- `ChatMessage` from `chatLogger.ts` (lines 7-20). -/
structure ChatMessage where
  id : String
  bubbleId : Option String
  timestamp : Nat
  role : Role
  content : String
  filteredContent : Option String
  metadata : MessageMetadata
  deriving DecidableEq, Repr

/-- `Conversation.metadata` from `chatLogger.ts` (lines 28-39). -/
structure ConversationMetadata where
  workspacePath : Option String
  fileContext : List String
  totalMessages : Nat
  userMessages : Nat
  assistantMessages : Nat
  totalTokensEstimated : Nat
  composerId : Option String
  sessionId : Option String
  source : Option String
  filePath : Option String
  deriving DecidableEq, Repr

/-- `Conversation` from `chatLogger.ts` (lines 22-40). -/
structure Conversation where
  id : String
  createdAt : Nat
  updatedAt : Nat
  title : String
  messages : List ChatMessage
  metadata : ConversationMetadata
  deriving DecidableEq, Repr

/-! ## Token estimation and metadata recalculation (`chatLogger.ts` 95-112) -/

/-- The whitespace class of the JS regex `\s` restricted to the ASCII
whitespace characters (space, tab, newline, carriage return, vertical tab,
form feed). -/
def jsIsSpace (c : Char) : Bool :=
  c == ' ' || c == '\t' || c == '\n' || c == '\r' || c == '\x0b' || c == '\x0c'

/-- Number of maximal whitespace runs in a character list; the flag
records whether the previous character was whitespace. -/
def countSpaceRunsAux : Bool → List Char → Nat
  | _, [] => 0
  | inRun, c :: rest =>
    if jsIsSpace c then (if inRun then 0 else 1) + countSpaceRunsAux true rest
    else countSpaceRunsAux false rest

/-- Number of maximal whitespace runs in a character list. -/
def countSpaceRuns (cs : List Char) : Nat :=
  countSpaceRunsAux false cs

/-- `str.split(/\s+/).length` in JS: one more than the number of maximal
whitespace runs (JS keeps an empty piece before a leading run and after a
trailing run, and `"".split(/\s+/)` is `[""]`). -/
def splitWhitespaceLen (s : String) : Nat :=
  countSpaceRuns s.data + 1

/-- `Math.ceil(content.split(/\s+/).length * 1.3)` from
`chatLogger.ts` line 100 and `ChatConversationMonitor.ts` line 754.
The multiplication by 1.3 is modelled with exact rational arithmetic
(`ceil (13*n/10)`); JS evaluates it in binary floating point, which for a
few lengths (e.g. 10) rounds the product just above the exact value.  The
claims proved below depend only on this being a fixed function of the
message content, not on its exact value. -/
def tokenEstimate (content : String) : Nat :=
  (13 * splitWhitespaceLen content + 9) / 10

/-- `ChatLogger.recalculateMetadata` (`chatLogger.ts` lines 95-112):
recomputes the derived count/token statistics from the message list,
keeping every other field. -/
def recalculateMetadata (conversation : Conversation) : Conversation :=
  let messages := conversation.messages
  let userMessages := (messages.filter fun msg => decide (msg.role = Role.user)).length
  let assistantMessages := (messages.filter fun msg => decide (msg.role = Role.assistant)).length
  let totalTokensEstimated := messages.foldl (fun sum msg => sum + tokenEstimate msg.content) 0
  { conversation with
    metadata := { conversation.metadata with
      totalMessages := messages.length
      userMessages := userMessages
      assistantMessages := assistantMessages
      totalTokensEstimated := totalTokensEstimated } }

/-! ## Merge of a new conversation into the persisted one
(`ChatLogger.saveConversation`, `chatLogger.ts` lines 155-177) -/

/-- The stable dedup key `msg.bubbleId || msg.id` (`chatLogger.ts` line
164): the fragment (bubble) identifier when present and non-empty (JS
truthiness), otherwise the message identifier. -/
def msgKey (msg : ChatMessage) : String :=
  match msg.bubbleId with
  | some b => if b = "" then msg.id else b
  | none => msg.id

/-- The dedup filter of `chatLogger.ts` lines 162-168: walk the
concatenated list keeping a `seen` set of keys, dropping any message whose
key was already seen.  The JS `Set` is modelled as a list consulted by
membership. -/
def dedupByKey : List ChatMessage → List String → List ChatMessage
  | [], _ => []
  | msg :: rest, seen =>
    if msgKey msg ∈ seen then dedupByKey rest seen
    else msg :: dedupByKey rest (msgKey msg :: seen)

/-- The final `seen` set produced while deduplicating a list. -/
def seenAfter : List ChatMessage → List String → List String
  | [], seen => seen
  | msg :: rest, seen =>
    if msgKey msg ∈ seen then seenAfter rest seen
    else seenAfter rest (msgKey msg :: seen)

/-- The merge step of `ChatLogger.saveConversation` when a persisted file
for the same `(createdAt, composerId)` already exists (`chatLogger.ts`
lines 155-177): concatenate existing messages then new messages, dedup by
`msgKey` keeping first occurrences, take `createdAt` from the existing
record and set `updatedAt` to the merge time, then recompute the derived
statistics.  (The persisted record always carries a non-empty `createdAt`
string, so the truthiness fallback on line 172 always takes the existing
value; serialization to locale strings and back is the identity on the
message data itself.) -/
def mergeConversation (now : Nat) (conversation existing : Conversation) : Conversation :=
  let existingMessages := existing.messages
  let newMessages := conversation.messages
  let allMessages := existingMessages ++ newMessages
  let mergedMessages := dedupByKey allMessages []
  recalculateMetadata
    { conversation with
      messages := mergedMessages
      createdAt := existing.createdAt
      updatedAt := now }

/-! ### C2: the merged list keeps the first occurrence of every key -/

/-- The spec's description of the merge ("deduplicate by a stable key,
keeping first occurrence"): keep each message and erase every later
message carrying the same key. -/
def keyFirstOccurrence : List ChatMessage → List ChatMessage
  | [] => []
  | m :: rest => m :: keyFirstOccurrence (rest.filter fun x => decide (msgKey x ≠ msgKey m))
termination_by l => l.length
decreasing_by
  simpa using Nat.lt_succ_of_le (List.length_filter_le _ rest)

/-- Existing persisted conversation used by the C2 witness: one message
whose fragment identifier is `b1`. -/
def c2ExistingConv : Conversation :=
  { id := "conv_old", createdAt := 10, updatedAt := 10, title := "t"
    messages := [{ id := "m1", bubbleId := some "b1", timestamp := 10, role := Role.user
                   content := "old text", filteredContent := none
                   metadata := { hasCodeBlocks := false, codeLanguage := none
                                 messageLength := 8, isFiltered := false } }]
    metadata := { workspacePath := some "/w", fileContext := [], totalMessages := 1
                  userMessages := 1, assistantMessages := 0, totalTokensEstimated := 3
                  composerId := some "c1", sessionId := none
                  source := some "cursor-database", filePath := some "composerData:c1" } }

/-- Newly built conversation used by the C2 witness: re-delivers fragment
`b1` with different content and adds fragment `b2`. -/
def c2NewConv : Conversation :=
  { id := "conv_new", createdAt := 20, updatedAt := 20, title := "t"
    messages := [{ id := "m2", bubbleId := some "b1", timestamp := 20, role := Role.user
                   content := "changed text", filteredContent := none
                   metadata := { hasCodeBlocks := false, codeLanguage := none
                                 messageLength := 12, isFiltered := false } },
                 { id := "m3", bubbleId := some "b2", timestamp := 20, role := Role.assistant
                   content := "answer", filteredContent := none
                   metadata := { hasCodeBlocks := false, codeLanguage := none
                                 messageLength := 6, isFiltered := false } }]
    metadata := { workspacePath := some "/w", fileContext := [], totalMessages := 2
                  userMessages := 1, assistantMessages := 1, totalTokensEstimated := 6
                  composerId := some "c1", sessionId := none
                  source := some "cursor-database", filePath := some "composerData:c1" } }

/-! ## Content Filter
(`ChatConversationMonitor.filterMessageContent`, lines 701-745)

The two redaction regexes and the detection regex are modelled directly
over character lists.  `/X[\s\S]*?X/g` (with `X` the triple-backtick
fence): each match starts at the leftmost fence and ends at the next
fence (lazy quantifier), and the global replace resumes after the match —
modelled by `splitAtFence` twice and recursion on the remainder.
An inline span `/Y[^Y]+Y/g` (with `Y` a single backtick) is a backtick,
one or more non-backticks, and a backtick; on failure the regex engine
advances one character — modelled by `replaceInline`. -/

/-- Split a character list at the first triple backtick: `some (pre, post)`
with the input equal to `pre ++ fence ++ post` and no triple backtick
starting inside `pre`. -/
def splitAtFence : List Char → Option (List Char × List Char)
  | '`' :: '`' :: '`' :: rest => some ([], rest)
  | c :: rest =>
    match splitAtFence rest with
    | some (pre, post) => some (c :: pre, post)
    | none => none
  | [] => none

/-- Split a character list at the first single backtick. -/
def splitAtTick : List Char → Option (List Char × List Char)
  | [] => none
  | '`' :: rest => some ([], rest)
  | c :: rest =>
    match splitAtTick rest with
    | some (pre, post) => some (c :: pre, post)
    | none => none

/-- One global pass of `content.replace(/X[\s\S]*?X/g,
'[CODE_BLOCK_FILTERED]')` with `X` the triple-backtick fence
(`ChatConversationMonitor.ts` line 728), written with a `Nat` fuel so the
recursion is structural: by `splitAtFence_length` every replaced match
consumes at least six characters, so `fuel = cs.length` never runs out. -/
def replaceFencedFuel : Nat → List Char → List Char
  | 0, cs => cs
  | fuel + 1, cs =>
    match splitAtFence cs with
    | none => cs
    | some (pre, rest) =>
      match splitAtFence rest with
      | none => cs
      | some (_body, after) =>
        pre ++ "[CODE_BLOCK_FILTERED]".data ++ replaceFencedFuel fuel after

def replaceFenced (cs : List Char) : List Char :=
  replaceFencedFuel cs.length cs

/-- One global pass of `filteredContent.replace(/Y[^Y]+Y/g,
'[INLINE_CODE_FILTERED]')` with `Y` a single backtick
(`ChatConversationMonitor.ts` line 731), fuelled likewise: by
`splitAtTick_length` each step consumes at least one character. -/
def replaceInlineFuel : Nat → List Char → List Char
  | 0, cs => cs
  | fuel + 1, cs =>
    match cs with
    | [] => []
    | '`' :: rest =>
      match splitAtTick rest with
      | some (span, after) =>
        if span = [] then '`' :: replaceInlineFuel fuel rest
        else "[INLINE_CODE_FILTERED]".data ++ replaceInlineFuel fuel after
      | none => '`' :: replaceInlineFuel fuel rest
    | c :: rest => c :: replaceInlineFuel fuel rest

def replaceInline (cs : List Char) : List Char :=
  replaceInlineFuel cs.length cs

/-- Whether `/X(\w+)?[\s\S]*?X/g` (`X` the fence) matches the text: there
is a fence with a later closing fence.  (The optional word-group cannot
change matchability: word characters are never backticks.) -/
def hasFencedBlock (cs : List Char) : Bool :=
  match splitAtFence cs with
  | none => false
  | some (_, rest) => (splitAtFence rest).isSome

/-- The JS word class `\w`. -/
def isWordChar (c : Char) : Bool :=
  ('a' ≤ c && c ≤ 'z') || ('A' ≤ c && c ≤ 'Z') || ('0' ≤ c && c ≤ '9') || c == '_'

/-- `text.match(/X(\w+)/)` (`X` the fence) searching left to right with
one-character advance on failure, returning the word group of the first
position where a fence is followed by at least one word character;
fuelled (each step drops one character). -/
def firstLangInFuel : Nat → List Char → Option String
  | 0, _ => none
  | fuel + 1, cs =>
    match cs with
    | '`' :: '`' :: '`' :: rest =>
      let w := rest.takeWhile isWordChar
      if w = [] then firstLangInFuel fuel ('`' :: '`' :: rest) else some (String.mk w)
    | _ :: rest => firstLangInFuel fuel rest
    | [] => none

def firstLangIn (cs : List Char) : Option String :=
  firstLangInFuel cs.length cs

/-- The language tag reported from the first fenced block: the code runs
the lang regex against `matches[0]`, the first (lazy) match of the
detection regex, which spans from the first fence to the next one. -/
def firstFenceLang (cs : List Char) : Option String :=
  match splitAtFence cs with
  | none => none
  | some (_, rest) =>
    match splitAtFence rest with
    | none => none
    | some (body, _) =>
      firstLangIn (['`', '`', '`'] ++ body ++ ['`', '`', '`'])

/-- The code-block detection performed on the original (pre-redaction)
text in both branches of `filterMessageContent`
(`ChatConversationMonitor.ts` lines 710-719 and 733-742). -/
def detectCodeMeta (content : String) : Bool × Option String :=
  if hasFencedBlock content.data then (true, firstFenceLang content.data)
  else (false, none)

/-- `ChatConversationMonitor.filterMessageContent` (lines 701-745):
returns the optional filtered text and the metadata record.  When
filtering is disabled or the role is not assistant, only detection
metadata is produced; otherwise fenced blocks and then remaining inline
spans are replaced by the fixed placeholders. -/
def filterMessageContent (ignoreCodeOutput : Bool) (content : String) (role : Role) :
    Option String × MessageMetadata :=
  let det := detectCodeMeta content
  if ignoreCodeOutput = false ∨ role ≠ Role.assistant then
    (none,
     { hasCodeBlocks := det.1, codeLanguage := det.2
       messageLength := content.length, isFiltered := false })
  else
    (some (String.mk (replaceInline (replaceFenced content.data))),
     { hasCodeBlocks := det.1, codeLanguage := det.2
       messageLength := content.length, isFiltered := true })

/-! ## Context Resolver matching
(`ChatConversationMonitor.isSameWorkspace`, lines 99-117) -/

/-- Path separators: Node treats `/` and `\` as separators on win32, which
is the platform the monitor hardcodes. -/
def isSep (c : Char) : Bool := c == '/' || c == '\\'

/-- Split a character list into path segments at separators; `cur` is the
reversed current segment. -/
def pathSegments : List Char → List Char → List (List Char)
  | [], cur => [cur.reverse]
  | c :: rest, cur =>
    if isSep c then cur.reverse :: pathSegments rest []
    else pathSegments rest (c :: cur)

/-- One step of segment normalization: drop empty and `.` segments,
resolve `..` against the previously kept segment (kept at the front of a
relative path, dropped at the root of an absolute one). -/
def normStackStep (absolute : Bool) (acc : List (List Char)) (seg : List Char) :
    List (List Char) :=
  if seg = [] ∨ seg = ['.'] then acc
  else if seg = ['.', '.'] then
    match acc with
    | [] => if absolute then [] else [seg]
    | top :: restAcc => if top = ['.', '.'] then seg :: acc else restAcc
  else seg :: acc

/-- Models `path.normalize(p).replace(/\\/g, '/')` as applied to the
current workspace path on line 101: separators unified to `/`, empty and
`.` segments dropped, `..` resolved.  Drive-letter roots and
trailing-separator preservation are not modelled; the engine compares
plain rooted paths. -/
def pathNormalize (cs : List Char) : List Char :=
  let absolute : Bool := match cs with | c :: _ => isSep c | [] => false
  let folded := ((pathSegments cs []).foldl (normStackStep absolute) []).reverse
  if absolute then '/' :: List.intercalate ['/'] folded
  else if folded = [] then ['.']
  else List.intercalate ['/'] folded

/-- The remainder after the first colon, when there is one. -/
def afterColon : List Char → Option (List Char)
  | [] => none
  | ':' :: rest => some rest
  | _ :: rest => afterColon rest

/-- The host-stripping regex of line 105 (`[^:]+:` then a capture of the
rest, anchored at the start): it fires only when the string has a colon
preceded by at least one non-colon character, keeping everything after
the first colon; otherwise the string is unchanged. -/
def stripHost (cs : List Char) : List Char :=
  match cs with
  | [] => cs
  | ':' :: _ => cs
  | _ :: rest =>
    match afterColon rest with
    | some post => post
    | none => cs

/-- `ChatConversationMonitor.isSameWorkspace` (lines 99-117) over
character lists: normalize the current workspace path, slash-normalize
the conversation path, strip a `host:` prefix, force a leading slash, and
test whether the current path is a prefix of the conversation path. -/
def isSameWorkspaceChars (conversationWorkspacePath currentWorkspacePath : List Char) : Bool :=
  let normCurrent := pathNormalize currentWorkspacePath
  let slashed := conversationWorkspacePath.map fun c => if c = '\\' then '/' else c
  let stripped := stripHost slashed
  let rooted := if stripped.head? = some '/' then stripped else '/' :: stripped
  normCurrent.isPrefixOf rooted

def isSameWorkspace (conversationWorkspacePath currentWorkspacePath : String) : Bool :=
  isSameWorkspaceChars conversationWorkspacePath.data currentWorkspacePath.data

/-! ## Deduplication Tracker and conversation parsing
(`ChatConversationMonitor`, lines 15, 223-327, 551-563, 686-699, 747-776,
804-812) -/

/-- `lastProcessedComposerIds`: container identifier ↦ fragment
identifiers already emitted; the `Map<string, Set<string>>` is modelled as
an insertion-ordered association list of insertion-ordered
duplicate-free lists. -/
abbrev Tracker := List (String × List String)

/-- `this.lastProcessedComposerIds.get(composerId) || new Set()`
(line 244). -/
def trackerGet (tracker : Tracker) (composerId : String) : List String :=
  match tracker.find? (fun p => p.1 == composerId) with
  | some p => p.2
  | none => []

/-- `Set.add` for each element: append those not already present. -/
def setAddAll (s : List String) (bubbleIds : List String) : List String :=
  bubbleIds.foldl (fun acc b => if b ∈ acc then acc else acc ++ [b]) s

/-- `ChatConversationMonitor.markComposerIdProcessed` (lines 804-812),
which is also literally the marking step inside `parseConversationData`
(lines 299-308): ensure an entry for the container and add every given
fragment id to its set. -/
def markComposerIdProcessed : Tracker → String → List String → Tracker
  | [], composerId, bubbleIds => [(composerId, setAddAll [] bubbleIds)]
  | (c, s) :: rest, composerId, bubbleIds =>
    if c = composerId then (c, setAddAll s bubbleIds) :: rest
    else (c, s) :: markComposerIdProcessed rest composerId bubbleIds

/-- The fields of a `bubbleId:{composerId}:{bubbleId}` row consulted when
building messages (`parseConversationData` lines 279-282): the numeric
message type code and the `text`/`content` payloads; absent fields are
`none`, and JS truthiness makes the empty string and the type code 0
falsy where the code tests them. -/
structure BubbleData where
  type : Option Nat
  text : Option String
  content : Option String
  deriving DecidableEq, Repr

/-- `bubbleData.text || bubbleData.content` (lines 279, 282): the text
payload when non-empty, else the content payload when non-empty. -/
def bubbleText (bubbleData : BubbleData) : Option String :=
  let contentPart : Option String :=
    match bubbleData.content with
    | some c => if c = "" then none else some c
    | none => none
  match bubbleData.text with
  | some t => if t = "" then contentPart else some t
  | none => contentPart

/-- The fields of a `composerData:{composerId}` row read by the parser:
the ordered fragment headers (each with an optional `bubbleId`,
lines 551-563), the display name/title and body-level identifiers used
for the title (lines 314-320), and the creation/update timestamps used by
`createConversation` (lines 759-760). -/
structure ComposerData where
  fullConversationHeadersOnly : List (Option String)
  name : Option String
  title : Option String
  composerId : Option String
  sessionId : Option String
  createdAt : Option Nat
  lastUpdatedAt : Option Nat
  deriving DecidableEq, Repr

/-- `extractBubbleIdsFromComposerData` (lines 551-563): the present
`bubbleId` fields in header order. -/
def extractBubbleIdsFromComposerData (data : ComposerData) : List String :=
  data.fullConversationHeadersOnly.filterMap id

/-- `extractComposerIdFromKey` (lines 390-394): the anchored regex
`composerData:` followed by a non-empty capture of non-colon
characters. -/
def extractComposerIdFromKey (key : String) : Option String :=
  if "composerData:".data.isPrefixOf key.data then
    let rest := (key.data.drop 13).takeWhile fun c => c != ':'
    if rest = [] then none else some (String.mk rest)
  else none

/-- `mapMessageTypeToRole` (lines 686-699); the store's type codes are
small non-negative integers. -/
def mapMessageTypeToRole : Nat → Option Role
  | 1 => some Role.user
  | 2 => some Role.assistant
  | 0 => some Role.system
  | _ => none

/-- The `bubbleId:{composerId}:{bubbleId}` point-lookup key (line 277). -/
def bubbleKey (composerId bubbleId : String) : String :=
  "bubbleId:" ++ composerId ++ ":" ++ bubbleId

/-- The message-building loop of `parseConversationData` (lines 274-297):
for each not-yet-tracked fragment id fetch its bubble row, require a
truthy type code and a truthy text payload, map the type code to a role
(dropping the fragment when unrecognized), filter the content and build
the message.  The wall clock and the random message-id generator are
oracle parameters (`now`; `genId`, indexed by the number of messages
already built). -/
def buildMessages (ignoreCodeOutput : Bool) (fetch : String → Option BubbleData)
    (now : Nat) (genId : Nat → String) (composerId : String) :
    List String → Nat → List ChatMessage
  | [], _ => []
  | bubbleId :: rest, idx =>
    match fetch (bubbleKey composerId bubbleId) with
    | none => buildMessages ignoreCodeOutput fetch now genId composerId rest idx
    | some bubbleData =>
      match bubbleData.type, bubbleText bubbleData with
      | some t, some text =>
        if t = 0 then buildMessages ignoreCodeOutput fetch now genId composerId rest idx
        else
          match mapMessageTypeToRole t with
          | some role =>
            let fm := filterMessageContent ignoreCodeOutput text role
            { id := genId idx, bubbleId := some bubbleId, timestamp := now
              role := role, content := text, filteredContent := fm.1, metadata := fm.2 }
              :: buildMessages ignoreCodeOutput fetch now genId composerId rest (idx + 1)
          | none => buildMessages ignoreCodeOutput fetch now genId composerId rest idx
      | _, _ => buildMessages ignoreCodeOutput fetch now genId composerId rest idx

/-- JS truthiness of an optional string: present and non-empty. -/
def truthyStr : Option String → Bool
  | some s => s != ""
  | none => false

/-- `a || b` on an optional string and a fallback string. -/
def orElseStr (a : Option String) (b : String) : String :=
  match a with
  | some s => if s = "" then b else s
  | none => b

/-- `createConversation` (lines 747-776).  The fresh random conversation
id `conv_${Date.now()}_${random}` is the oracle parameter
`conversationId`; absent timestamps fall back to the current time. -/
def createConversation (conversationId : String) (now : Nat) (title : String)
    (messages : List ChatMessage) (data : ComposerData) (key : String)
    (workspacePath : Option String) : Conversation :=
  let userMessages := (messages.filter fun msg => decide (msg.role = Role.user)).length
  let assistantMessages := (messages.filter fun msg => decide (msg.role = Role.assistant)).length
  let totalTokensEstimated := messages.foldl (fun sum msg => sum + tokenEstimate msg.content) 0
  { id := conversationId
    createdAt := data.createdAt.getD now
    updatedAt := data.lastUpdatedAt.getD now
    title := title
    messages := messages
    metadata := { workspacePath := workspacePath, fileContext := []
                  totalMessages := messages.length
                  userMessages := userMessages
                  assistantMessages := assistantMessages
                  totalTokensEstimated := totalTokensEstimated
                  composerId := data.composerId
                  sessionId := data.sessionId
                  source := some "cursor-database"
                  filePath := some key } }

/-- The ambient state read by one `parseConversationData` call: the
key-value store lookup (`getBubbleData`), the active workspace path
(`getCurrentWorkspacePath`), the result of the auxiliary workspace
extraction (`extractWorkspacePathFromData`, itself a store/registry walk
modelled as an oracle), the `ignoreCodeOutput` configuration, and the
wall-clock/random oracles. -/
structure MonitorEnv where
  fetch : String → Option BubbleData
  currentWorkspacePath : Option String
  extractedWorkspacePath : Option String
  ignoreCodeOutput : Bool
  now : Nat
  genId : Nat → String
  conversationId : String

/-- `parseConversationData` (lines 223-327): returns the emitted
conversation (`none` on every skip path) together with the updated
Deduplication Tracker.  The tracker update (lines 299-308) happens
unconditionally once there are new fragment ids — before the
empty-messages check of line 310 and before the caller persists
anything. -/
def parseConversationData (env : MonitorEnv) (tracker : Tracker)
    (data : ComposerData) (key : String) : Option Conversation × Tracker :=
  match extractComposerIdFromKey key with
  | none => (none, tracker)
  | some composerId =>
    let bubbleIds := extractBubbleIdsFromComposerData data
    if bubbleIds = [] then (none, tracker)
    else
      let processedSet := trackerGet tracker composerId
      let newBubbleIds := bubbleIds.filter fun b => decide (b ∉ processedSet)
      if newBubbleIds = [] then (none, tracker)
      else
        match env.currentWorkspacePath with
        | none => (none, tracker)
        | some currentWorkspacePath =>
          match env.extractedWorkspacePath with
          | none => (none, tracker)
          | some workspacePath =>
            if isSameWorkspace workspacePath currentWorkspacePath = false then
              (none, tracker)
            else
              let messages := buildMessages env.ignoreCodeOutput env.fetch env.now
                env.genId composerId newBubbleIds 0
              let tracker' := markComposerIdProcessed tracker composerId newBubbleIds
              if messages = [] then (none, tracker')
              else
                let conversationTitle :=
                  if truthyStr data.composerId then
                    orElseStr data.name ("Composer " ++ data.composerId.getD "")
                  else if truthyStr data.sessionId then
                    orElseStr data.title ("Session " ++ data.sessionId.getD "")
                  else "Cursor Chat Conversation"
                (some (createConversation env.conversationId env.now conversationTitle
                  messages data key (some workspacePath)), tracker')

/-! ## Poll Scheduler (`checkForChanges`, lines 138-177) -/

/-- The monitor state consulted by the scheduler guard: the boolean
in-progress flag and whether the database handle is initialized. -/
structure MonitorState where
  isCheckingForChanges : Bool
  dbInitialized : Bool
  deriving DecidableEq, Repr

/-- The entry of `checkForChanges` on a timer tick (lines 147-161): a tick
arriving while a poll is in progress returns at once with no store read
(dropped, not queued); with no database handle nothing happens either;
otherwise the flag is set and the poll issues its `cursorDiskKV` scan
(read count 1). -/
def checkForChangesEnter (s : MonitorState) : MonitorState × Nat :=
  if s.isCheckingForChanges then (s, 0)
  else if s.dbInitialized = false then (s, 0)
  else ({ s with isCheckingForChanges := true }, 1)

/-- The `finally` clause of `checkForChanges` (lines 174-176): the flag is
cleared whether the poll body succeeded or threw. -/
def checkForChangesFinally (s : MonitorState) (_success : Bool) : MonitorState :=
  { s with isCheckingForChanges := false }

/-- Environment of the C3 counterexample: every bubble row decodes with
the unrecognized type code 7, and the workspace checks pass. -/
def c3Env : MonitorEnv :=
  { fetch := fun _ => some { type := some 7, text := some "hello", content := none }
    currentWorkspacePath := some "/w"
    extractedWorkspacePath := some "/w"
    ignoreCodeOutput := true
    now := 0
    genId := fun _ => "msg_0"
    conversationId := "conv_0" }

/-- Composer record of the C3 counterexample: a single fragment `b1`. -/
def c3Data : ComposerData :=
  { fullConversationHeadersOnly := [some "b1"], name := none, title := none
    composerId := some "c1", sessionId := none, createdAt := none, lastUpdatedAt := none }

/-- Environment of the C4 witness: only fragment `f3` has a bubble row (a
user message), and the workspace checks pass. -/
def c4Env : MonitorEnv :=
  { fetch := fun k => if k = "bubbleId:c1:f3" then
      some { type := some 1, text := some "hi there", content := none } else none
    currentWorkspacePath := some "/w"
    extractedWorkspacePath := some "/w"
    ignoreCodeOutput := true
    now := 0
    genId := fun _ => "msg_0"
    conversationId := "conv_0" }

/-- Composer record of the C4 witness: fragments `f1, f2, f3` in order. -/
def c4Data : ComposerData :=
  { fullConversationHeadersOnly := [some "f1", some "f2", some "f3"]
    name := some "My chat", title := none
    composerId := some "c1", sessionId := none, createdAt := none, lastUpdatedAt := none }

/-! ## Theorems -/

/-! ### Dedup lemmas -/

theorem seenAfter_mem {a : String} :
    ∀ (xs : List ChatMessage) (seen : List String),
      a ∈ seenAfter xs seen ↔ a ∈ seen ∨ a ∈ xs.map msgKey := by
  intro xs
  induction xs with
  | nil => intro seen; simp [seenAfter]
  | cons m rest ih =>
    intro seen
    by_cases h : msgKey m ∈ seen
    · simp only [seenAfter, if_pos h, ih, List.map_cons, List.mem_cons]
      constructor
      · rintro (hs | hk)
        · exact Or.inl hs
        · exact Or.inr (Or.inr hk)
      · rintro (hs | he | hk)
        · exact Or.inl hs
        · exact Or.inl (he ▸ h)
        · exact Or.inr hk
    · simp only [seenAfter, if_neg h, ih, List.map_cons, List.mem_cons]
      tauto

theorem dedupByKey_keys_mem {a : String} :
    ∀ (xs : List ChatMessage) (seen : List String),
      a ∈ (dedupByKey xs seen).map msgKey ↔ a ∉ seen ∧ a ∈ xs.map msgKey := by
  intro xs
  induction xs with
  | nil => intro seen; simp [dedupByKey]
  | cons m rest ih =>
    intro seen
    by_cases h : msgKey m ∈ seen
    · simp only [dedupByKey, if_pos h, ih, List.map_cons, List.mem_cons]
      constructor
      · rintro ⟨hns, hk⟩; exact ⟨hns, Or.inr hk⟩
      · rintro ⟨hns, he | hk⟩
        · exact absurd (he ▸ h) hns
        · exact ⟨hns, hk⟩
    · simp only [dedupByKey, if_neg h, List.map_cons, List.mem_cons, ih, List.mem_cons]
      constructor
      · rintro (he | ⟨hns, hk⟩)
        · exact ⟨he ▸ h, Or.inl he⟩
        · exact ⟨fun hs => hns (Or.inr hs), Or.inr hk⟩
      · rintro ⟨hns, he | hk⟩
        · exact Or.inl he
        · by_cases he : a = msgKey m
          · exact Or.inl he
          · refine Or.inr ⟨fun hc => ?_, hk⟩
            rcases hc with h1 | h2
            · exact he h1
            · exact hns h2

theorem dedupByKey_keys_nodup :
    ∀ (xs : List ChatMessage) (seen : List String),
      ((dedupByKey xs seen).map msgKey).Nodup := by
  intro xs
  induction xs with
  | nil => intro seen; simp [dedupByKey]
  | cons m rest ih =>
    intro seen
    by_cases h : msgKey m ∈ seen
    · simpa [dedupByKey, if_pos h] using ih seen
    · simp only [dedupByKey, if_neg h, List.map_cons, List.nodup_cons]
      refine ⟨fun hc => ?_, ih _⟩
      rcases (dedupByKey_keys_mem _ _).mp hc with ⟨hns, _⟩
      exact hns (List.mem_cons_self _ _)

theorem dedupByKey_append :
    ∀ (xs ys : List ChatMessage) (seen : List String),
      dedupByKey (xs ++ ys) seen = dedupByKey xs seen ++ dedupByKey ys (seenAfter xs seen) := by
  intro xs
  induction xs with
  | nil => intro ys seen; simp [dedupByKey, seenAfter]
  | cons m rest ih =>
    intro ys seen
    by_cases h : msgKey m ∈ seen
    · simp [dedupByKey, seenAfter, if_pos h, ih]
    · simp [dedupByKey, seenAfter, if_neg h, ih]

theorem dedupByKey_eq_nil :
    ∀ (xs : List ChatMessage) (seen : List String),
      (∀ m ∈ xs, msgKey m ∈ seen) → dedupByKey xs seen = [] := by
  intro xs
  induction xs with
  | nil => intro seen _; simp [dedupByKey]
  | cons m rest ih =>
    intro seen hall
    have hm : msgKey m ∈ seen := hall m (List.mem_cons_self _ _)
    simp only [dedupByKey, if_pos hm]
    exact ih seen fun x hx => hall x (List.mem_cons_of_mem _ hx)

theorem dedupByKey_eq_self :
    ∀ (xs : List ChatMessage) (seen : List String),
      (xs.map msgKey).Nodup → (∀ m ∈ xs, msgKey m ∉ seen) → dedupByKey xs seen = xs := by
  intro xs
  induction xs with
  | nil => intro seen _ _; simp [dedupByKey]
  | cons m rest ih =>
    intro seen hnd hout
    have hm : msgKey m ∉ seen := hout m (List.mem_cons_self _ _)
    simp only [List.map_cons, List.nodup_cons] at hnd
    simp only [dedupByKey, if_neg hm]
    congr 1
    refine ih _ hnd.2 fun x hx hc => ?_
    rcases List.mem_cons.mp hc with h1 | h2
    · exact hnd.1 (h1 ▸ List.mem_map_of_mem msgKey hx)
    · exact hout x (List.mem_cons_of_mem _ hx) h2

/-- Deduplicating an already-deduplicated list against the keys it has
produced removes everything that reappears: the core idempotence fact. -/
theorem dedupByKey_idem (xs ys : List ChatMessage) :
    dedupByKey (dedupByKey (xs ++ ys) [] ++ ys) [] = dedupByKey (xs ++ ys) [] := by
  rw [dedupByKey_append]
  have h1 : dedupByKey (dedupByKey (xs ++ ys) []) [] = dedupByKey (xs ++ ys) [] :=
    dedupByKey_eq_self _ _ (dedupByKey_keys_nodup _ _) (by simp)
  have h2 : dedupByKey ys (seenAfter (dedupByKey (xs ++ ys) []) []) = [] := by
    refine dedupByKey_eq_nil _ _ fun m hm => ?_
    rw [seenAfter_mem]
    right
    rw [dedupByKey_keys_mem]
    refine ⟨by simp, ?_⟩
    rw [List.map_append]
    exact List.mem_append_right _ (List.mem_map_of_mem msgKey hm)
  rw [h1, h2, List.append_nil]

/-! ### C1: merge is idempotent -/

/-- C1: merging the same new conversation `N` into an existing persisted
conversation `E` twice in a row yields the same message list and the same
derived statistics (`totalMessages`, `userMessages`, `assistantMessages`,
`totalTokensEstimated` — in fact the whole metadata record) as merging it
once. -/
theorem spec_C1_merge_idempotent (now1 now2 : Nat) (N E : Conversation) :
    (mergeConversation now2 N (mergeConversation now1 N E)).messages
        = (mergeConversation now1 N E).messages
      ∧ (mergeConversation now2 N (mergeConversation now1 N E)).metadata
        = (mergeConversation now1 N E).metadata := by
  have hmsgs : (mergeConversation now1 N E).messages = dedupByKey (E.messages ++ N.messages) [] := by
    simp [mergeConversation, recalculateMetadata]
  have hcore := dedupByKey_idem E.messages N.messages
  constructor
  · simp only [mergeConversation, recalculateMetadata, hmsgs]
    exact hcore
  · simp only [mergeConversation, recalculateMetadata, hmsgs]
    rw [hcore]

theorem dedupByKey_eq_keyFirstOccurrence_aux :
    ∀ (n : Nat) (xs : List ChatMessage), xs.length ≤ n → ∀ (seen : List String),
      dedupByKey xs seen = keyFirstOccurrence (xs.filter fun m => decide (msgKey m ∉ seen)) := by
  intro n
  induction n with
  | zero =>
    intro xs hlen seen
    have : xs = [] := List.eq_nil_of_length_eq_zero (Nat.le_zero.mp hlen)
    simp [this, dedupByKey, keyFirstOccurrence]
  | succ n ih =>
    intro xs hlen seen
    cases xs with
    | nil => simp [dedupByKey, keyFirstOccurrence]
    | cons m rest =>
      have hrest : rest.length ≤ n := Nat.le_of_succ_le_succ hlen
      by_cases h : msgKey m ∈ seen
      · simp only [dedupByKey, if_pos h, List.filter_cons, decide_eq_true_eq]
        rw [if_neg (by simp [h])]
        exact ih rest hrest seen
      · simp only [dedupByKey, if_neg h, List.filter_cons]
        rw [if_pos (by simp [h])]
        simp only [keyFirstOccurrence]
        congr 1
        rw [ih rest hrest (msgKey m :: seen)]
        have hfil : (rest.filter fun x => decide (msgKey x ∉ msgKey m :: seen))
            = ((rest.filter fun x => decide (msgKey x ∉ seen)).filter
                fun x => decide (msgKey x ≠ msgKey m)) := by
          rw [List.filter_filter]
          refine List.filter_congr fun x _ => ?_
          by_cases h1 : msgKey x = msgKey m <;>
            by_cases h2 : msgKey x ∈ seen <;>
              simp [h1, h2, List.mem_cons]
        rw [hfil]

theorem dedupByKey_eq_keyFirstOccurrence (xs : List ChatMessage) :
    dedupByKey xs [] = keyFirstOccurrence xs := by
  have h := dedupByKey_eq_keyFirstOccurrence_aux xs.length xs (Nat.le_refl _) []
  simpa using h

theorem find?_dedupByKey (k : String) :
    ∀ (xs : List ChatMessage) (seen : List String),
      (dedupByKey xs seen).find? (fun m => decide (msgKey m = k))
        = if k ∈ seen then none else xs.find? (fun m => decide (msgKey m = k)) := by
  intro xs
  induction xs with
  | nil => intro seen; simp [dedupByKey]
  | cons m rest ih =>
    intro seen
    by_cases h : msgKey m ∈ seen
    · simp only [dedupByKey, if_pos h, ih]
      by_cases hk : k ∈ seen
      · simp [hk]
      · have hne : ¬(msgKey m = k) := fun he => hk (he ▸ h)
        simp [hk, List.find?_cons, hne]
    · simp only [dedupByKey, if_neg h]
      by_cases he : msgKey m = k
      · have hk : k ∉ seen := he ▸ h
        simp [List.find?_cons, he, hk]
      · have hstep : (m :: dedupByKey rest (msgKey m :: seen)).find?
              (fun x => decide (msgKey x = k))
            = (dedupByKey rest (msgKey m :: seen)).find? (fun x => decide (msgKey x = k)) := by
          simp [List.find?_cons, he]
        rw [hstep, ih (msgKey m :: seen)]
        by_cases hk : k ∈ seen
        · have hc : k ∈ msgKey m :: seen := List.mem_cons_of_mem _ hk
          simp [hk, hc]
        · have hnc : k ∉ msgKey m :: seen := by
            intro hc
            rcases List.mem_cons.mp hc with h1 | h2
            · exact he h1.symm
            · exact hk h2
          simp [hk, hnc, List.find?_cons, he]

theorem find?_append_of_some (p : ChatMessage → Bool) (x : ChatMessage) :
    ∀ (l1 l2 : List ChatMessage), l1.find? p = some x → (l1 ++ l2).find? p = some x := by
  intro l1
  induction l1 with
  | nil => intro l2 h; simp [List.find?] at h
  | cons a rest ih =>
    intro l2 h
    cases hp : p a with
    | true => simpa [List.find?_cons, hp] using by simpa [List.find?_cons, hp] using h
    | false =>
      simp only [List.find?_cons, hp] at h
      simpa [List.find?_cons, hp] using ih l2 h

theorem find?_of_mem_keys (k : String) :
    ∀ (l : List ChatMessage), k ∈ l.map msgKey →
      ∃ x, l.find? (fun m => decide (msgKey m = k)) = some x := by
  intro l
  induction l with
  | nil => simp
  | cons a rest ih =>
    intro h
    rw [List.map_cons, List.mem_cons] at h
    by_cases ha : msgKey a = k
    · exact ⟨a, by simp [List.find?_cons, ha]⟩
    · have hrest : k ∈ rest.map msgKey := by
        rcases h with h1 | h2
        · exact absurd h1.symm ha
        · exact h2
      rcases ih hrest with ⟨x, hx⟩
      exact ⟨x, by simp [List.find?_cons, ha, hx]⟩

/-- C2: the merged message list is the concatenation of the existing
messages followed by the new messages deduplicated by `msgKey`, keeping
the first occurrence of each key; no two merged messages share a key; and
for a key present in the existing record the kept message is the existing
one (the first match in the merged list equals the first match on disk). -/
theorem spec_C2_merge_first_occurrence (now : Nat) (N E : Conversation) :
    (mergeConversation now N E).messages = keyFirstOccurrence (E.messages ++ N.messages)
      ∧ (((mergeConversation now N E).messages).map msgKey).Nodup
      ∧ ∀ k : String, k ∈ E.messages.map msgKey →
          (mergeConversation now N E).messages.find? (fun m => decide (msgKey m = k))
            = E.messages.find? (fun m => decide (msgKey m = k)) := by
  have hmsgs : (mergeConversation now N E).messages
      = dedupByKey (E.messages ++ N.messages) [] := by
    simp [mergeConversation, recalculateMetadata]
  refine ⟨?_, ?_, ?_⟩
  · rw [hmsgs, dedupByKey_eq_keyFirstOccurrence]
  · rw [hmsgs]; exact dedupByKey_keys_nodup _ _
  · intro k hk
    rw [hmsgs, find?_dedupByKey]
    simp only [List.not_mem_nil, if_false]
    rcases find?_of_mem_keys k E.messages hk with ⟨x, hx⟩
    rw [find?_append_of_some _ _ _ _ hx, hx]

theorem spec_C2_witness :
    (mergeConversation 30 c2NewConv c2ExistingConv).messages.find?
        (fun m => decide (msgKey m = "b1"))
      = c2ExistingConv.messages.find? (fun m => decide (msgKey m = "b1")) :=
  (spec_C2_merge_first_occurrence 30 c2NewConv c2ExistingConv).2.2 "b1" (by decide)

/-! ### C10: frame conditions of the merge -/

/-- C10: merging takes only `createdAt` and the deduplicated message list
from the existing record; `id`, `title`, and the non-derived metadata
fields (`workspacePath`, `composerId`, `sessionId`, `filePath`, `source`,
`fileContext`) come from the newly built conversation, `updatedAt` is the
merge time and the statistics are recomputed; consequently whenever the
new conversation's freshly generated id differs from the stored one, the
persisted id changes on the merge. -/
theorem spec_C10_merge_frame (now : Nat) (N E : Conversation) :
    (mergeConversation now N E).id = N.id
      ∧ (mergeConversation now N E).title = N.title
      ∧ (mergeConversation now N E).metadata.workspacePath = N.metadata.workspacePath
      ∧ (mergeConversation now N E).metadata.composerId = N.metadata.composerId
      ∧ (mergeConversation now N E).metadata.sessionId = N.metadata.sessionId
      ∧ (mergeConversation now N E).metadata.filePath = N.metadata.filePath
      ∧ (mergeConversation now N E).metadata.source = N.metadata.source
      ∧ (mergeConversation now N E).metadata.fileContext = N.metadata.fileContext
      ∧ (mergeConversation now N E).createdAt = E.createdAt
      ∧ (mergeConversation now N E).updatedAt = now
      ∧ (mergeConversation now N E).messages = dedupByKey (E.messages ++ N.messages) []
      ∧ (mergeConversation now N E).metadata.totalMessages
          = (mergeConversation now N E).messages.length
      ∧ (N.id ≠ E.id → (mergeConversation now N E).id ≠ E.id) := by
  refine ⟨?_, ?_, ?_, ?_, ?_, ?_, ?_, ?_, ?_, ?_, ?_, ?_, ?_⟩ <;>
    simp [mergeConversation, recalculateMetadata]

theorem spec_C10_witness :
    (mergeConversation 30 c2NewConv c2ExistingConv).id ≠ c2ExistingConv.id :=
  (spec_C10_merge_frame 30 c2NewConv c2ExistingConv).2.2.2.2.2.2.2.2.2.2.2.2 (by decide)

theorem splitAtFence_length (cs : List Char) :
    ∀ pre post, splitAtFence cs = some (pre, post) →
      cs.length = pre.length + post.length + 3 := by
  induction cs using splitAtFence.induct with
  | case1 rest =>
    intro pre post h
    simp only [splitAtFence, Option.some.injEq, Prod.mk.injEq] at h
    rcases h with ⟨h1, h2⟩
    subst h1; subst h2
    simp only [List.length_cons, List.length_nil]
    omega
  | case2 c rest hne p q hmatch ih =>
    intro pre post h
    rw [splitAtFence] at h
    · rw [hmatch] at h
      simp only [Option.some.injEq, Prod.mk.injEq] at h
      rcases h with ⟨h1, h2⟩
      subst h1; subst h2
      have hr := ih p q hmatch
      simp only [List.length_cons]
      omega
    · exact hne
  | case3 c rest hne hnone ih =>
    intro pre post h
    rw [splitAtFence] at h
    · rw [hnone] at h
      simp at h
    · exact hne
  | case4 =>
    intro pre post h
    simp [splitAtFence] at h

theorem splitAtTick_length (cs : List Char) :
    ∀ pre post, splitAtTick cs = some (pre, post) →
      cs.length = pre.length + post.length + 1 := by
  induction cs using splitAtTick.induct with
  | case1 => intro pre post h; simp [splitAtTick] at h
  | case2 rest =>
    intro pre post h
    simp only [splitAtTick, Option.some.injEq, Prod.mk.injEq] at h
    rcases h with ⟨h1, h2⟩
    subst h1; subst h2
    simp only [List.length_cons, List.length_nil]
    omega
  | case3 c rest hne p q hmatch ih =>
    intro pre post h
    rw [splitAtTick] at h
    · rw [hmatch] at h
      simp only [Option.some.injEq, Prod.mk.injEq] at h
      rcases h with ⟨h1, h2⟩
      subst h1; subst h2
      have hr := ih p q hmatch
      simp only [List.length_cons]
      omega
    · exact hne
  | case4 c rest hne hnone ih =>
    intro pre post h
    rw [splitAtTick] at h
    · rw [hnone] at h
      simp at h
    · exact hne

/-- C6: with filtering enabled and role assistant, fenced code blocks are
replaced by `[CODE_BLOCK_FILTERED]`, remaining inline spans by
`[INLINE_CODE_FILTERED]`, and the language tag comes from the first
fenced block of the original text: on the spec's example input the
filtered content contains both placeholders, `hasCodeBlocks` is true, and
`codeLanguage` is `python`. -/
theorem spec_C6_filter_example :
    (filterMessageContent true "Use `x=1` then:\n```python\nprint(x)\n```" Role.assistant).1
        = some "Use [INLINE_CODE_FILTERED] then:\n[CODE_BLOCK_FILTERED]"
      ∧ ("[INLINE_CODE_FILTERED]".data
          <:+: ((filterMessageContent true "Use `x=1` then:\n```python\nprint(x)\n```"
            Role.assistant).1.getD "").data)
      ∧ ("[CODE_BLOCK_FILTERED]".data
          <:+: ((filterMessageContent true "Use `x=1` then:\n```python\nprint(x)\n```"
            Role.assistant).1.getD "").data)
      ∧ (filterMessageContent true "Use `x=1` then:\n```python\nprint(x)\n```"
          Role.assistant).2.hasCodeBlocks = true
      ∧ (filterMessageContent true "Use `x=1` then:\n```python\nprint(x)\n```"
          Role.assistant).2.codeLanguage = some "python" := by
  decide

/-- C7: the filtered-text field is present exactly when code filtering is
enabled and the role is assistant (in that branch the code always applies
the redaction, so "filtering was actually applied" coincides with the
guard); in every case the metadata fields are computed: code-block
detection on the original text, the message length, and the
`isFiltered` flag mirroring the guard. -/
theorem spec_C7_filtered_iff (ignoreCodeOutput : Bool) (content : String) (role : Role) :
    ((filterMessageContent ignoreCodeOutput content role).1.isSome
        = (ignoreCodeOutput && decide (role = Role.assistant)))
      ∧ (filterMessageContent ignoreCodeOutput content role).2.hasCodeBlocks
          = (detectCodeMeta content).1
      ∧ (filterMessageContent ignoreCodeOutput content role).2.codeLanguage
          = (detectCodeMeta content).2
      ∧ (filterMessageContent ignoreCodeOutput content role).2.messageLength = content.length
      ∧ (filterMessageContent ignoreCodeOutput content role).2.isFiltered
          = (ignoreCodeOutput && decide (role = Role.assistant)) := by
  cases ignoreCodeOutput <;> cases role <;> simp [filterMessageContent]

/-- C8 counterexample: the claim says plain-local contexts are compared
by exact match, so the resolved path `/home/a/proj1` should fail against
the active path `/home/a/proj`; the code uses prefix matching for local
paths too and accepts it. -/
theorem spec_C8_counterexample :
    isSameWorkspace "/home/a/proj1" "/home/a/proj" = true := by
  decide

theorem isPrefixOf_append (l t : List Char) : l.isPrefixOf (l ++ t) = true := by
  induction l with
  | nil => simp [List.isPrefixOf]
  | cons c rest ih => simp [List.isPrefixOf, ih]

theorem afterColon_eq_none (cs : List Char) (h : ':' ∉ cs) : afterColon cs = none := by
  induction cs with
  | nil => simp [afterColon]
  | cons c rest ih =>
    have hc : c ≠ ':' := fun he => h (he ▸ List.mem_cons_self _ _)
    have hrest : ':' ∉ rest := fun hm => h (List.mem_cons_of_mem _ hm)
    cases c with
    | mk v p =>
      rw [afterColon]
      · exact ih hrest
      · exact fun he => hc he

/-- C8 amended: the comparison is prefix matching after normalization for
every context kind, local ones included: whenever the resolved
conversation path extends the (already normalized, colon- and
backslash-free, rooted) active path, the two are considered the same
workspace and the container is not skipped. -/
theorem spec_C8_amended_prefix_match (cur ext : List Char)
    (hnorm : pathNormalize cur = cur)
    (hslash : '\\' ∉ cur ++ ext)
    (hcolon : ':' ∉ cur ++ ext)
    (hroot : (cur ++ ext).head? = some '/') :
    isSameWorkspaceChars (cur ++ ext) cur = true := by
  simp only [isSameWorkspaceChars]
  have hmap : ((cur ++ ext).map fun c => if c = '\\' then '/' else c) = cur ++ ext := by
    have : ∀ l : List Char, '\\' ∉ l → (l.map fun c => if c = '\\' then '/' else c) = l := by
      intro l
      induction l with
      | nil => simp
      | cons c rest ih =>
        intro hl
        have hc : c ≠ '\\' := fun he => hl (he ▸ List.mem_cons_self _ _)
        have hrest : '\\' ∉ rest := fun hm => hl (List.mem_cons_of_mem _ hm)
        simp [hc, ih hrest]
    exact this _ hslash
  have hstrip : stripHost (cur ++ ext) = cur ++ ext := by
    cases hce : cur ++ ext with
    | nil => simp [stripHost]
    | cons c rest =>
      have hc : c = '/' := by
        have := hroot
        rw [hce] at this
        simpa using this
      have hrest : ':' ∉ rest := by
        intro hm
        exact hcolon (hce ▸ List.mem_cons_of_mem _ hm)
      subst hc
      rw [stripHost]
      · rw [afterColon_eq_none rest hrest]
      · intro he
        exact absurd he (by decide)
  rw [hmap, hstrip, hnorm]
  have hhead : (cur ++ ext).head? = some '/' := hroot
  rw [if_pos hhead]
  exact isPrefixOf_append cur ext

theorem spec_C8_amended_witness :
    isSameWorkspaceChars ("/home/a/proj".data ++ "1".data) "/home/a/proj".data = true :=
  spec_C8_amended_prefix_match "/home/a/proj".data "1".data
    (by decide) (by decide) (by decide) (by decide)

/-! ## C9: scheduler mutual exclusion -/

/-- C9: at most one in-flight poll.  A timer tick that fires while the
in-progress flag is set performs no store reads and leaves the state
unchanged (the tick is dropped, not deferred); the completion handler
clears the flag on success and failure alike; and after completion a tick
with an initialized database starts a poll (flag set, one store scan). -/
theorem spec_C9_scheduler_mutex (s : MonitorState) :
    (s.isCheckingForChanges = true → checkForChangesEnter s = (s, 0))
      ∧ (∀ success : Bool, (checkForChangesFinally s success).isCheckingForChanges = false)
      ∧ (s.dbInitialized = true → ∀ success : Bool,
          (checkForChangesEnter (checkForChangesFinally s success)).1.isCheckingForChanges = true
            ∧ (checkForChangesEnter (checkForChangesFinally s success)).2 = 1) := by
  refine ⟨?_, ?_, ?_⟩
  · intro h
    simp [checkForChangesEnter, h]
  · intro _
    simp [checkForChangesFinally]
  · intro hdb _
    simp [checkForChangesEnter, checkForChangesFinally, hdb]

theorem spec_C9_witness :
    checkForChangesEnter { isCheckingForChanges := true, dbInitialized := true }
        = ({ isCheckingForChanges := true, dbInitialized := true }, 0)
      ∧ (checkForChangesEnter (checkForChangesFinally
          { isCheckingForChanges := true, dbInitialized := true } false)).1.isCheckingForChanges
        = true :=
  ⟨(spec_C9_scheduler_mutex { isCheckingForChanges := true, dbInitialized := true }).1 rfl,
   ((spec_C9_scheduler_mutex { isCheckingForChanges := true, dbInitialized := true }).2.2
      rfl false).1⟩

/-! ## C5: role mapping and role rejection -/

theorem buildMessages_nil_of_no_role (ignoreCodeOutput : Bool)
    (fetch : String → Option BubbleData) (now : Nat) (genId : Nat → String)
    (composerId : String)
    (h : ∀ k bd, fetch k = some bd → ∀ t, bd.type = some t → mapMessageTypeToRole t = none) :
    ∀ (bubbleIds : List String) (idx : Nat),
      buildMessages ignoreCodeOutput fetch now genId composerId bubbleIds idx = [] := by
  intro bubbleIds
  induction bubbleIds with
  | nil => intro idx; rfl
  | cons b rest ih =>
    intro idx
    simp only [buildMessages]
    cases hf : fetch (bubbleKey composerId b) with
    | none => exact ih idx
    | some bd =>
      cases hty : bd.type with
      | none =>
        cases hbt : bubbleText bd with
        | none => simp only [hty, hbt]; exact ih idx
        | some text => simp only [hty, hbt]; exact ih idx
      | some t =>
        cases hbt : bubbleText bd with
        | none => simp only [hty, hbt]; exact ih idx
        | some text =>
          simp only [hty, hbt]
          by_cases ht0 : t = 0
          · rw [if_pos ht0]
            exact ih idx
          · rw [if_neg ht0, h _ _ hf t hty]
            exact ih idx

theorem parseConversationData_none_of_no_role (env : MonitorEnv) (tracker : Tracker)
    (data : ComposerData) (key : String)
    (h : ∀ k bd, env.fetch k = some bd → ∀ t, bd.type = some t → mapMessageTypeToRole t = none) :
    (parseConversationData env tracker data key).1 = none := by
  simp only [parseConversationData]
  cases hk : extractComposerIdFromKey key with
  | none => rfl
  | some composerId =>
    simp only
    split
    · rfl
    · split
      · rfl
      · cases hcw : env.currentWorkspacePath with
        | none => rfl
        | some w =>
          cases hew : env.extractedWorkspacePath with
          | none => rfl
          | some w2 =>
            simp only
            split
            · rfl
            · rw [buildMessages_nil_of_no_role env.ignoreCodeOutput env.fetch env.now
                env.genId composerId h]
              simp

/-- C5: the fragment type-code-to-role mapping is exactly 0 ↦ system,
1 ↦ user, 2 ↦ assistant, and every other code yields no role; a fragment
whose type code is 7 never produces a message, and a container whose every
fetched fragment has an unrecognized type code yields no conversation. -/
theorem spec_C5_role_mapping :
    mapMessageTypeToRole 0 = some Role.system
      ∧ mapMessageTypeToRole 1 = some Role.user
      ∧ mapMessageTypeToRole 2 = some Role.assistant
      ∧ (∀ t : Nat, t ≠ 0 → t ≠ 1 → t ≠ 2 → mapMessageTypeToRole t = none)
      ∧ (∀ (ignoreCodeOutput : Bool) (fetch : String → Option BubbleData) (now : Nat)
            (genId : Nat → String) (composerId : String) (bubbleIds : List String) (idx : Nat),
          (∀ k bd, fetch k = some bd → bd.type = some 7) →
          buildMessages ignoreCodeOutput fetch now genId composerId bubbleIds idx = [])
      ∧ (∀ (env : MonitorEnv) (tracker : Tracker) (data : ComposerData) (key : String),
          (∀ k bd, env.fetch k = some bd →
            ∀ t, bd.type = some t → mapMessageTypeToRole t = none) →
          (parseConversationData env tracker data key).1 = none) := by
  refine ⟨rfl, rfl, rfl, ?_, ?_, ?_⟩
  · intro t h0 h1 h2
    match t, h0, h1, h2 with
    | 0, h0, _, _ => exact absurd rfl h0
    | 1, _, h1, _ => exact absurd rfl h1
    | 2, _, _, h2 => exact absurd rfl h2
    | (n + 3), _, _, _ => rfl
  · intro ignoreCodeOutput fetch now genId composerId bubbleIds idx h
    refine buildMessages_nil_of_no_role ignoreCodeOutput fetch now genId composerId
      (fun k bd hf t hty => ?_) bubbleIds idx
    have h7 : (7 : Nat) = t := Option.some.inj ((h k bd hf).symm.trans hty)
    rw [← h7]
    rfl
  · intro env tracker data key h
    exact parseConversationData_none_of_no_role env tracker data key h

theorem spec_C5_witness :
    mapMessageTypeToRole 7 = none
      ∧ buildMessages true (fun _ => some { type := some 7, text := some "x", content := none })
          0 (fun _ => "m") "c1" ["b1"] 0 = []
      ∧ (parseConversationData c3Env [] c3Data "composerData:c1").1 = none :=
  ⟨spec_C5_role_mapping.2.2.2.1 7 (by decide) (by decide) (by decide),
   spec_C5_role_mapping.2.2.2.2.1 true _ 0 _ "c1" ["b1"] 0
     (fun k bd hf => by cases hf; rfl),
   spec_C5_role_mapping.2.2.2.2.2 c3Env [] c3Data "composerData:c1"
     (fun k bd hf => by cases hf; intro t ht; cases ht; rfl)⟩

/-! ## C3: when the tracker's seen-set is updated -/

/-- C3 counterexample: the claim says a fragment id enters the seen-set
only after its messages were built and persisted; here the single
fragment `b1` has an unrecognized type code, so no message is built and
nothing is emitted or saved, yet `b1` is in the tracker's seen-set for
container `c1` after the parse. -/
theorem spec_C3_counterexample :
    (parseConversationData c3Env [] c3Data "composerData:c1").1 = none
      ∧ "b1" ∈ trackerGet (parseConversationData c3Env [] c3Data "composerData:c1").2 "c1" := by
  decide

/-- C3 amended: the new fragment identifiers of a container enter the
Deduplication Tracker's seen-set during the parse itself, as soon as the
container passes the key, novelty and workspace checks — whether or not
any message was built from them, and before (and regardless of) any
persistence. -/
theorem spec_C3_amended_marking (env : MonitorEnv) (tracker : Tracker)
    (data : ComposerData) (key composerId w w2 : String)
    (hkey : extractComposerIdFromKey key = some composerId)
    (hnew : (extractBubbleIdsFromComposerData data).filter
        (fun b => decide (b ∉ trackerGet tracker composerId)) ≠ [])
    (hcw : env.currentWorkspacePath = some w)
    (hew : env.extractedWorkspacePath = some w2)
    (hsw : isSameWorkspace w2 w = true) :
    (parseConversationData env tracker data key).2
      = markComposerIdProcessed tracker composerId
          ((extractBubbleIdsFromComposerData data).filter
            (fun b => decide (b ∉ trackerGet tracker composerId))) := by
  simp only [parseConversationData, hkey]
  have hbids : extractBubbleIdsFromComposerData data ≠ [] := by
    intro h0
    apply hnew
    rw [h0]
    rfl
  rw [if_neg hbids, if_neg hnew]
  simp only [hcw, hew]
  rw [if_neg (by rw [hsw]; simp)]
  split <;> rfl

theorem spec_C3_amended_witness :
    (parseConversationData c3Env [] c3Data "composerData:c1").2
      = markComposerIdProcessed [] "c1"
          ((extractBubbleIdsFromComposerData c3Data).filter
            (fun b => decide (b ∉ trackerGet [] "c1"))) :=
  spec_C3_amended_marking c3Env [] c3Data "composerData:c1" "c1" "/w" "/w"
    (by decide) (by decide) rfl rfl (by decide)

/-! ## C4: restart safety -/

/-- C4: restart safety.  With a fresh tracker reseeded from a persisted
conversation carrying fragments `f1, f2` (via
`loadSavedConversations`/`markComposerIdProcessed`), a poll whose
container record lists `f1, f2, f3` emits a conversation whose message
list is exactly the one message built from `f3`; `f1` and `f2` are not
re-emitted. -/
theorem spec_C4_restart_safety (env : MonitorEnv) (tracker0 : Tracker)
    (data : ComposerData) (key composerId f1 f2 f3 w w2 t : String)
    (hkey : extractComposerIdFromKey key = some composerId)
    (hdata : extractBubbleIdsFromComposerData data = [f1, f2, f3])
    (h31 : f3 ≠ f1) (h32 : f3 ≠ f2)
    (htr : tracker0 = markComposerIdProcessed [] composerId [f1, f2])
    (hcw : env.currentWorkspacePath = some w)
    (hew : env.extractedWorkspacePath = some w2)
    (hsw : isSameWorkspace w2 w = true)
    (hf3 : env.fetch (bubbleKey composerId f3)
        = some { type := some 1, text := some t, content := none })
    (ht : t ≠ "") :
    ((parseConversationData env tracker0 data key).1.map
        fun conv => conv.messages.map fun m => m.bubbleId) = some [some f3] := by
  subst htr
  have htg : trackerGet (markComposerIdProcessed [] composerId [f1, f2]) composerId
      = setAddAll [] [f1, f2] := by
    simp [markComposerIdProcessed, trackerGet, List.find?]
  have hset : setAddAll [] [f1, f2] = if f2 ∈ ([f1] : List String) then [f1] else [f1, f2] := by
    simp [setAddAll]
  have hf1m : f1 ∈ setAddAll [] [f1, f2] := by
    rw [hset]
    split
    · simp
    · simp
  have hf2m : f2 ∈ setAddAll [] [f1, f2] := by
    rw [hset]
    split
    · next hmem => exact hmem
    · simp
  have hf3m : f3 ∉ setAddAll [] [f1, f2] := by
    rw [hset]
    split
    · simp [h31]
    · simp [h31, h32]
  have hfilter : (([f1, f2, f3] : List String).filter
      fun b => decide (b ∉ setAddAll [] [f1, f2])) = [f3] := by
    simp [List.filter, hf1m, hf2m, hf3m]
  have hbt : bubbleText { type := some 1, text := some t, content := none } = some t := by
    simp [bubbleText, ht]
  have hbm : buildMessages env.ignoreCodeOutput env.fetch env.now env.genId composerId [f3] 0
      = [{ id := env.genId 0, bubbleId := some f3, timestamp := env.now, role := Role.user
           content := t
           filteredContent := (filterMessageContent env.ignoreCodeOutput t Role.user).1
           metadata := (filterMessageContent env.ignoreCodeOutput t Role.user).2 }] := by
    simp only [buildMessages, hf3, hbt]
    simp [mapMessageTypeToRole]
  simp only [parseConversationData, hkey, hdata, htg, hfilter]
  rw [if_neg (by simp : ¬([f1, f2, f3] : List String) = [])]
  rw [if_neg (by simp : ¬([f3] : List String) = [])]
  simp only [hcw, hew]
  rw [if_neg (by rw [hsw]; simp)]
  rw [hbm]
  rw [if_neg (by simp)]
  simp [createConversation]

theorem spec_C4_witness :
    ((parseConversationData c4Env (markComposerIdProcessed [] "c1" ["f1", "f2"]) c4Data
        "composerData:c1").1.map fun conv => conv.messages.map fun m => m.bubbleId)
      = some [some "f3"] :=
  spec_C4_restart_safety c4Env (markComposerIdProcessed [] "c1" ["f1", "f2"]) c4Data
    "composerData:c1" "c1" "f1" "f2" "f3" "/w" "/w" "hi there"
    (by decide) (by decide) (by decide) (by decide) rfl rfl rfl (by decide)
    (by decide) (by decide)

end Chatlogger
